import Mathlib

/-!
Shallow embedding of the worker canvas bootstrap scripts
(`src/host/worker.js`, the override variant, and `src/unnamed/part_000`,
the baseline variant without the getContext override).

JavaScript values are modelled by `JSVal`; objects live in an explicit
heap (`Heap`) addressed by list index, so that aliasing and in-place
mutation of the attributes object in the getContext override are
observable.  The worker's global mutable state (`self.RUST_OFFSCREEN_CANVAS`,
the `self.onmessage` registration, the calls to `init()`, and the
`console.warn` / `console.error` diagnostics) is modelled by `WorkerState`.
-/

/-- The subset of JavaScript values the bootstrap scripts touch.
Objects (including `OffscreenCanvas` instances) are heap references. -/
inductive JSVal : Type where
  | undefined : JSVal
  | null : JSVal
  | str : String → JSVal
  | boolean : Bool → JSVal
  | num : Int → JSVal
  | ref : Nat → JSVal
deriving DecidableEq, Repr

/-- A heap object: ordered field list plus a flag telling whether the
object is an `OffscreenCanvas` instance. -/
structure HObj : Type where
  isCanvas : Bool
  fields : List (String × JSVal)
deriving DecidableEq, Repr

/-- The heap: address `a` denotes `h.getD a ⟨false, []⟩`. -/
abbrev Heap : Type := List HObj

/-- Ordered association-list lookup; a missing property reads as
`undefined`, as in JavaScript. -/
def lookupField : List (String × JSVal) → String → JSVal
  | [], _ => JSVal.undefined
  | (k, v) :: rest, key => if k = key then v else lookupField rest key

/-- JavaScript property assignment on a field list: an existing key keeps
its position, a new key is appended. -/
def setFieldList : List (String × JSVal) → String → JSVal → List (String × JSVal)
  | [], key, v => [(key, v)]
  | (k, w) :: rest, key, v =>
      if k = key then (key, v) :: rest else (k, w) :: setFieldList rest key v

/-- Property read `v[key]` (only meaningful on object references; the
scripts read properties only behind a `typeof`/null guard). -/
def getField (h : Heap) (v : JSVal) (key : String) : JSVal :=
  match v with
  | JSVal.ref a => lookupField (h.getD a ⟨false, []⟩).fields key
  | _ => JSVal.undefined

/-- Property write `h[a][key] = v`, an in-place heap mutation. -/
def heapSetField (h : Heap) (a : Nat) (key : String) (v : JSVal) : Heap :=
  h.set a ⟨(h.getD a ⟨false, []⟩).isCanvas, setFieldList (h.getD a ⟨false, []⟩).fields key v⟩

/-- `typeof v === 'object'` (true for `null` and for every object). -/
def typeofIsObject : JSVal → Bool
  | JSVal.null => true
  | JSVal.ref _ => true
  | _ => false

/-- `v instanceof OffscreenCanvas`. -/
def instanceofOffscreenCanvas (h : Heap) : JSVal → Bool
  | JSVal.ref a => (h.getD a ⟨false, []⟩).isCanvas
  | _ => false

/-- The validity check of `self.onmessage` (worker.js line 18):
`typeof data === 'object' && data !== null && data.type === "CANVAS"
&& data.canvas instanceof OffscreenCanvas`. -/
def isValidCanvasMessage (h : Heap) (data : JSVal) : Bool :=
  typeofIsObject data
    && decide (data ≠ JSVal.null)
    && decide (getField h data "type" = JSVal.str "CANVAS")
    && instanceofOffscreenCanvas h (getField h data "canvas")

/-- One call to `init()` (worker.js lines 55-58): `importScripts` of the
module entry script, then `wasm_bindgen` with the binary artifact path. -/
structure InitCall : Type where
  importedScript : String
  wasm_bindgen_module_or_path : String
deriving DecidableEq, Repr

/-- The effect of `init()`: the two fixed relative paths. -/
def init : InitCall :=
  ⟨"./app/rose-sample-rs.js", "./app/rose-sample-rs_bg.wasm"⟩

/-- The worker's global mutable state. `RUST_OFFSCREEN_CANVAS = none`
models the initial `null`; `onmessageRegistered` models whether
`self.onmessage` is still the handler (set to `null` on success);
`overrideInstalled` records whether the getContext override was installed
on the stored canvas; `initCalls`, `warnCount`, `errorCount` record the
calls to `init()`, `console.warn` and `console.error`. -/
structure WorkerState : Type where
  RUST_OFFSCREEN_CANVAS : Option JSVal
  onmessageRegistered : Bool
  overrideInstalled : Bool
  initCalls : List InitCall
  warnCount : Nat
  errorCount : Nat
deriving DecidableEq, Repr

/-- The worker state right after the script loads: canvas `null`,
handler registered, nothing else has happened. -/
def initialState : WorkerState :=
  ⟨none, true, false, [], 0, 0⟩

/-- The body of `self.onmessage` in `src/host/worker.js` (the override
variant), as a state transformer over `WorkerState`.  The heap is only
read: the handshake itself mutates no message object. -/
def onmessageBody (h : Heap) (s : WorkerState) (data : JSVal) : WorkerState :=
  if s.RUST_OFFSCREEN_CANVAS.isSome then
    { s with warnCount := s.warnCount + 1 }
  else if isValidCanvasMessage h data then
    { s with
        RUST_OFFSCREEN_CANVAS := some (getField h data "canvas"),
        overrideInstalled := true,
        onmessageRegistered := false,
        initCalls := s.initCalls ++ [init] }
  else
    { s with errorCount := s.errorCount + 1 }

/-- The body of `self.onmessage` in `src/unnamed/part_000` (the baseline
variant): identical, except that no getContext override is installed. -/
def onmessageBodyBaseline (h : Heap) (s : WorkerState) (data : JSVal) : WorkerState :=
  if s.RUST_OFFSCREEN_CANVAS.isSome then
    { s with warnCount := s.warnCount + 1 }
  else if isValidCanvasMessage h data then
    { s with
        RUST_OFFSCREEN_CANVAS := some (getField h data "canvas"),
        onmessageRegistered := false,
        initCalls := s.initCalls ++ [init] }
  else
    { s with errorCount := s.errorCount + 1 }

/-- Delivery of a message event to the worker: the handler body runs only
while `self.onmessage` is still registered. -/
def deliver (h : Heap) (s : WorkerState) (data : JSVal) : WorkerState :=
  if s.onmessageRegistered then onmessageBody h s data else s

/-- Baseline-variant delivery. -/
def deliverBaseline (h : Heap) (s : WorkerState) (data : JSVal) : WorkerState :=
  if s.onmessageRegistered then onmessageBodyBaseline h s data else s

/-- Delivering a whole sequence of messages (override variant). -/
def runMessages (h : Heap) (s : WorkerState) (msgs : List JSVal) : WorkerState :=
  msgs.foldl (deliver h) s

/-- Delivering a whole sequence of messages (baseline variant). -/
def runMessagesBaseline (h : Heap) (s : WorkerState) (msgs : List JSVal) : WorkerState :=
  msgs.foldl (deliverBaseline h) s

/-- JavaScript `args[1] = v` on the rest-parameter array of getContext.
If the array had fewer than two elements it grows to length two (the
hole reads back as `undefined` under spreading). -/
def setArg1 (args : List JSVal) (v : JSVal) : List JSVal :=
  match args with
  | [] => [JSVal.undefined, v]
  | [a0] => [a0, v]
  | a0 :: _ :: rest => a0 :: v :: rest

/-- The argument transformation performed by the getContext override
(worker.js lines 23-38) before delegating to `ORIGINAL_GET_CONTEXT`:
if `args[0] === "webgl2"`, first `args[1] = {}` when
`args.length < 2 || typeof args[1] !== 'object' || args[1] === null`
(allocating a fresh empty object), then `args[1].desynchronized = true`
(an in-place mutation of the attributes object); any other context type
passes through untouched. -/
def getContextTransform (h : Heap) (args : List JSVal) : Heap × List JSVal :=
  if args.getD 0 JSVal.undefined = JSVal.str "webgl2" then
    let step1 : Heap × List JSVal :=
      if args.length < 2 ∨ typeofIsObject (args.getD 1 JSVal.undefined) = false
          ∨ args.getD 1 JSVal.undefined = JSVal.null then
        (h ++ [⟨false, []⟩], setArg1 args (JSVal.ref h.length))
      else
        (h, args)
    match step1.2.getD 1 JSVal.undefined with
    | JSVal.ref a => (heapSetField step1.1 a "desynchronized" (JSVal.boolean true), step1.2)
    | _ => step1
  else
    (h, args)

/-- The installed override itself: transform the arguments, then delegate
to the original acquisition operation and return its result unchanged. -/
def getContextOverride {α : Type} (orig : Heap → List JSVal → α)
    (h : Heap) (args : List JSVal) : α :=
  orig (getContextTransform h args).1 (getContextTransform h args).2

/-- Forget the `overrideInstalled` flag: the projection of the state on
which the two bootstrap variants are compared. -/
def eraseOverride (s : WorkerState) : WorkerState :=
  { s with overrideInstalled := false }

/-- A concrete heap for witnesses: address 0 is an `OffscreenCanvas`,
address 1 is a well-formed initialization message object. -/
def h0 : Heap :=
  [⟨true, []⟩, ⟨false, [("type", JSVal.str "CANVAS"), ("canvas", JSVal.ref 0)]⟩]

/-- The well-formed initialization message in `h0`. -/
def m0 : JSVal := JSVal.ref 1

example : isValidCanvasMessage h0 m0 = true := by decide
example : isValidCanvasMessage h0 (JSVal.str "PING") = false := by decide
example : getField h0 m0 "canvas" = JSVal.ref 0 := by decide

/-! ### Basic lemmas about the handler -/

theorem deliver_of_registered (h : Heap) (s : WorkerState) (m : JSVal)
    (hr : s.onmessageRegistered = true) : deliver h s m = onmessageBody h s m := by
  simp [deliver, hr]

theorem deliver_of_unregistered (h : Heap) (s : WorkerState) (m : JSVal)
    (hr : s.onmessageRegistered = false) : deliver h s m = s := by
  simp [deliver, hr]

theorem onmessageBody_of_bound (h : Heap) (s : WorkerState) (m : JSVal)
    (hb : s.RUST_OFFSCREEN_CANVAS.isSome) :
    onmessageBody h s m = { s with warnCount := s.warnCount + 1 } := by
  simp [onmessageBody, hb]

theorem onmessageBody_of_valid (h : Heap) (s : WorkerState) (m : JSVal)
    (h1 : s.RUST_OFFSCREEN_CANVAS = none) (hv : isValidCanvasMessage h m = true) :
    onmessageBody h s m =
      { s with
          RUST_OFFSCREEN_CANVAS := some (getField h m "canvas"),
          overrideInstalled := true,
          onmessageRegistered := false,
          initCalls := s.initCalls ++ [init] } := by
  simp [onmessageBody, h1, hv]

theorem onmessageBody_of_invalid (h : Heap) (s : WorkerState) (m : JSVal)
    (h1 : s.RUST_OFFSCREEN_CANVAS = none) (hv : isValidCanvasMessage h m = false) :
    onmessageBody h s m = { s with errorCount := s.errorCount + 1 } := by
  simp [onmessageBody, h1, hv]

theorem deliver_valid_binds (h : Heap) (s : WorkerState) (m : JSVal)
    (h1 : s.RUST_OFFSCREEN_CANVAS = none) (h2 : s.onmessageRegistered = true)
    (hv : isValidCanvasMessage h m = true) :
    deliver h s m =
      { s with
          RUST_OFFSCREEN_CANVAS := some (getField h m "canvas"),
          overrideInstalled := true,
          onmessageRegistered := false,
          initCalls := s.initCalls ++ [init] } := by
  rw [deliver_of_registered h s m h2, onmessageBody_of_valid h s m h1 hv]

/-! ### Claim theorems: the handshake -/

/-- C1: a well-formed initialization message received while the surface
state is absent binds the supplied canvas, deregisters the inbound
handler, and any subsequently delivered message leaves the state
untouched. -/
theorem first_valid_message_binds (h : Heap) (s : WorkerState) (m : JSVal)
    (h1 : s.RUST_OFFSCREEN_CANVAS = none) (h2 : s.onmessageRegistered = true)
    (hv : isValidCanvasMessage h m = true) :
    (deliver h s m).RUST_OFFSCREEN_CANVAS = some (getField h m "canvas")
      ∧ (deliver h s m).onmessageRegistered = false
      ∧ ∀ m2 : JSVal, deliver h (deliver h s m) m2 = deliver h s m := by
  rw [deliver_valid_binds h s m h1 h2 hv]
  refine ⟨rfl, rfl, fun m2 => ?_⟩
  exact deliver_of_unregistered h _ m2 rfl

/-- C1 witness: the theorem instantiated on the concrete heap `h0`,
initial state and message `m0`, with the follow-up message `null`. -/
theorem first_valid_message_binds_witness :
    (deliver h0 initialState m0).RUST_OFFSCREEN_CANVAS = some (JSVal.ref 0)
      ∧ (deliver h0 initialState m0).onmessageRegistered = false
      ∧ deliver h0 (deliver h0 initialState m0) JSVal.null = deliver h0 initialState m0 := by
  have t := first_valid_message_binds h0 initialState m0 rfl rfl (by decide)
  exact ⟨t.1.trans (by decide), t.2.1, t.2.2 JSVal.null⟩

/-- C2: while awaiting the surface, the handler stores a surface exactly
when the message is an object, non-null, with `type` equal to the literal
string CANVAS and `canvas` an OffscreenCanvas instance; and the stored
surface is then the message's `canvas` field. -/
theorem awaiting_transition_iff (h : Heap) (s : WorkerState) (m : JSVal)
    (h1 : s.RUST_OFFSCREEN_CANVAS = none) (h2 : s.onmessageRegistered = true) :
    ((deliver h s m).RUST_OFFSCREEN_CANVAS.isSome
        ↔ typeofIsObject m = true ∧ m ≠ JSVal.null
            ∧ getField h m "type" = JSVal.str "CANVAS"
            ∧ instanceofOffscreenCanvas h (getField h m "canvas") = true)
      ∧ (isValidCanvasMessage h m = true →
          (deliver h s m).RUST_OFFSCREEN_CANVAS = some (getField h m "canvas")) := by
  constructor
  · rw [deliver_of_registered h s m h2]
    by_cases hv : isValidCanvasMessage h m = true
    · rw [onmessageBody_of_valid h s m h1 hv]
      simp only [isValidCanvasMessage, Bool.and_eq_true, decide_eq_true_eq] at hv
      simp only [Option.isSome_some, true_iff]
      exact ⟨hv.1.1.1, hv.1.1.2, hv.1.2, hv.2⟩
    · rw [onmessageBody_of_invalid h s m h1 (by simpa using hv)]
      simp only [isValidCanvasMessage, Bool.and_eq_true, decide_eq_true_eq] at hv
      simp only [h1, Option.isSome_none, Bool.false_eq_true, false_iff]
      intro hc
      exact hv ⟨⟨⟨hc.1, hc.2.1⟩, hc.2.2.1⟩, hc.2.2.2⟩
  · intro hv
    rw [deliver_of_registered h s m h2, onmessageBody_of_valid h s m h1 hv]

/-- C2 witness: the characterization applied to the concrete valid
message `m0` over the heap `h0`. -/
theorem awaiting_transition_iff_witness :
    ((deliver h0 initialState m0).RUST_OFFSCREEN_CANVAS.isSome
        ↔ typeofIsObject m0 = true ∧ m0 ≠ JSVal.null
            ∧ getField h0 m0 "type" = JSVal.str "CANVAS"
            ∧ instanceofOffscreenCanvas h0 (getField h0 m0 "canvas") = true)
      ∧ (deliver h0 initialState m0).RUST_OFFSCREEN_CANVAS = some (getField h0 m0 "canvas") := by
  have t := awaiting_transition_iff h0 initialState m0 rfl rfl
  exact ⟨t.1, t.2 (by decide)⟩

/-- C3: whenever the handler body runs with the surface state already
set, the message is discarded with exactly one warning: the state is
unchanged except for the warning count, the bound surface is still the
old one, and `init` is not invoked again. -/
theorem surfaceBound_discards_with_warning (h : Heap) (s : WorkerState) (m : JSVal)
    (c : JSVal) (hb : s.RUST_OFFSCREEN_CANVAS = some c) :
    onmessageBody h s m = { s with warnCount := s.warnCount + 1 }
      ∧ (onmessageBody h s m).RUST_OFFSCREEN_CANVAS = some c
      ∧ (onmessageBody h s m).initCalls = s.initCalls
      ∧ (onmessageBody h s m).warnCount = s.warnCount + 1 := by
  have hb2 : s.RUST_OFFSCREEN_CANVAS.isSome := by rw [hb]; rfl
  rw [onmessageBody_of_bound h s m hb2]
  exact ⟨rfl, hb, rfl, rfl⟩

/-- C3 witness: the bound state obtained by delivering `m0`, then handed
a second copy of `m0` directly to the handler body. -/
theorem surfaceBound_discards_with_warning_witness :
    onmessageBody h0 (deliver h0 initialState m0) m0
        = { deliver h0 initialState m0 with
              warnCount := (deliver h0 initialState m0).warnCount + 1 }
      ∧ (onmessageBody h0 (deliver h0 initialState m0) m0).RUST_OFFSCREEN_CANVAS
          = some (JSVal.ref 0)
      ∧ (onmessageBody h0 (deliver h0 initialState m0) m0).initCalls
          = (deliver h0 initialState m0).initCalls := by
  have t := surfaceBound_discards_with_warning h0 (deliver h0 initialState m0) m0
    (JSVal.ref 0) (by decide)
  exact ⟨t.1, t.2.1, t.2.2.1⟩

/-- C4: a malformed message received while awaiting the surface only
increments the error diagnostic count: the surface stays absent, the
handler stays registered, and a later valid message still binds. -/
theorem malformed_message_is_nonfatal (h : Heap) (s : WorkerState) (m : JSVal)
    (h1 : s.RUST_OFFSCREEN_CANVAS = none) (h2 : s.onmessageRegistered = true)
    (hv : isValidCanvasMessage h m = false) :
    deliver h s m = { s with errorCount := s.errorCount + 1 }
      ∧ (deliver h s m).RUST_OFFSCREEN_CANVAS = none
      ∧ (deliver h s m).onmessageRegistered = true
      ∧ ∀ m2 : JSVal, isValidCanvasMessage h m2 = true →
          (deliver h (deliver h s m) m2).RUST_OFFSCREEN_CANVAS
            = some (getField h m2 "canvas") := by
  rw [deliver_of_registered h s m h2, onmessageBody_of_invalid h s m h1 hv]
  refine ⟨rfl, h1, h2, fun m2 hv2 => ?_⟩
  rw [deliver_valid_binds h { s with errorCount := s.errorCount + 1 } m2 h1 h2 hv2]

/-- C4 witness: the malformed message is the string PING; `m0` still
binds afterwards. -/
theorem malformed_message_is_nonfatal_witness :
    deliver h0 initialState (JSVal.str "PING")
        = { initialState with errorCount := initialState.errorCount + 1 }
      ∧ (deliver h0 initialState (JSVal.str "PING")).RUST_OFFSCREEN_CANVAS = none
      ∧ (deliver h0 initialState (JSVal.str "PING")).onmessageRegistered = true
      ∧ (deliver h0 (deliver h0 initialState (JSVal.str "PING")) m0).RUST_OFFSCREEN_CANVAS
          = some (getField h0 m0 "canvas") := by
  have t := malformed_message_is_nonfatal h0 initialState (JSVal.str "PING")
    rfl rfl (by decide)
  exact ⟨t.1, t.2.1, t.2.2.1, t.2.2.2 m0 (by decide)⟩

/-! ### Runs over message sequences -/

theorem runMessages_cons (h : Heap) (s : WorkerState) (m : JSVal) (ms : List JSVal) :
    runMessages h s (m :: ms) = runMessages h (deliver h s m) ms := rfl

theorem runMessages_of_unregistered (h : Heap) (ms : List JSVal) :
    ∀ s : WorkerState, s.onmessageRegistered = false → runMessages h s ms = s := by
  induction ms with
  | nil => intro s _; rfl
  | cons m ms ih =>
      intro s hr
      rw [runMessages_cons, deliver_of_unregistered h s m hr]
      exact ih s hr

/-- Characterization of a run started in the awaiting state: the surface
ends up equal to the `canvas` field of the first valid message (if any),
and `init` is called exactly once when some valid message occurs. -/
theorem runMessages_awaiting (h : Heap) (ms : List JSVal) :
    ∀ s : WorkerState, s.RUST_OFFSCREEN_CANVAS = none → s.onmessageRegistered = true →
      (runMessages h s ms).RUST_OFFSCREEN_CANVAS
          = (ms.find? (isValidCanvasMessage h)).map (fun m => getField h m "canvas")
        ∧ (runMessages h s ms).initCalls
            = s.initCalls ++ (if ms.any (isValidCanvasMessage h) then [init] else []) := by
  induction ms with
  | nil =>
      intro s h1 h2
      refine ⟨?_, ?_⟩ <;> simp [runMessages, h1]
  | cons m ms ih =>
      intro s h1 h2
      rw [runMessages_cons, deliver_of_registered h s m h2]
      by_cases hv : isValidCanvasMessage h m = true
      · rw [onmessageBody_of_valid h s m h1 hv,
          runMessages_of_unregistered h ms _ rfl]
        refine ⟨?_, ?_⟩ <;> simp [List.find?_cons, List.any_cons, hv]
      · have hv2 : isValidCanvasMessage h m = false := by simpa using hv
        rw [onmessageBody_of_invalid h s m h1 hv2]
        have t := ih { s with errorCount := s.errorCount + 1 } h1 h2
        refine ⟨?_, ?_⟩ <;> simp [List.find?_cons, List.any_cons, hv2, t.1, t.2]

/-- C5: the worker-owned surface state begins absent, equals the canvas
of the first structurally valid message after any run from the initial
state, and once set to some canvas it keeps that value through every
further delivered message. -/
theorem surface_state_set_at_most_once (h : Heap) :
    initialState.RUST_OFFSCREEN_CANVAS = none
      ∧ (∀ ms : List JSVal,
          (runMessages h initialState ms).RUST_OFFSCREEN_CANVAS
            = (ms.find? (isValidCanvasMessage h)).map (fun m => getField h m "canvas"))
      ∧ ∀ (s : WorkerState) (ms : List JSVal) (c : JSVal),
          s.RUST_OFFSCREEN_CANVAS = some c →
          (runMessages h s ms).RUST_OFFSCREEN_CANVAS = some c := by
  refine ⟨rfl, fun ms => (runMessages_awaiting h ms initialState rfl rfl).1, ?_⟩
  intro s ms c
  induction ms generalizing s with
  | nil => intro hb; exact hb
  | cons m ms ih =>
      intro hb
      rw [runMessages_cons]
      apply ih
      by_cases hr : s.onmessageRegistered = true
      · rw [deliver_of_registered h s m hr,
          onmessageBody_of_bound h s m (by rw [hb]; rfl)]
        exact hb
      · rw [deliver_of_unregistered h s m (by simpa using hr)]
        exact hb

/-- C5 witness: a run on the concrete heap `h0`, and preservation of the
bound canvas under two further messages. -/
theorem surface_state_set_at_most_once_witness :
    (runMessages h0 initialState [m0]).RUST_OFFSCREEN_CANVAS
        = ([m0].find? (isValidCanvasMessage h0)).map (fun m => getField h0 m "canvas")
      ∧ (runMessages h0 (deliver h0 initialState m0)
            [JSVal.null, m0]).RUST_OFFSCREEN_CANVAS = some (JSVal.ref 0) := by
  have t := surface_state_set_at_most_once h0
  exact ⟨t.2.1 [m0],
    t.2.2 (deliver h0 initialState m0) [JSVal.null, m0] (JSVal.ref 0) (by decide)⟩

/-- C8: over any run from the initial state, `init` is invoked exactly
once when a valid message occurs (and never otherwise), and its effect
loads the module entry script `./app/rose-sample-rs.js` and starts it
with the binary artifact `./app/rose-sample-rs_bg.wasm`. -/
theorem bootstrap_module_paths (h : Heap) (ms : List JSVal) :
    (runMessages h initialState ms).initCalls
        = (if ms.any (isValidCanvasMessage h) then [init] else [])
      ∧ init.importedScript = "./app/rose-sample-rs.js"
      ∧ init.wasm_bindgen_module_or_path = "./app/rose-sample-rs_bg.wasm" :=
  ⟨by simpa [initialState] using (runMessages_awaiting h ms initialState rfl rfl).2,
    rfl, rfl⟩

/-! ### Equivalence of the two bootstrap variants -/

theorem eraseOverride_deliver (h : Heap) (m : JSVal) (s1 s2 : WorkerState)
    (hs : eraseOverride s1 = eraseOverride s2) :
    eraseOverride (deliver h s1 m) = eraseOverride (deliverBaseline h s2 m) := by
  cases s1 with
  | mk a1 b1 c1 d1 e1 f1 =>
    cases s2 with
    | mk a2 b2 c2 d2 e2 f2 =>
      simp only [eraseOverride, WorkerState.mk.injEq, and_true, true_and] at hs
      obtain ⟨ha, hb, hd, he, hf⟩ := hs
      subst ha; subst hb; subst hd; subst he; subst hf
      by_cases hr : b1 = true
      · subst hr
        by_cases hsm : (a1).isSome
        · simp [deliver, deliverBaseline, onmessageBody, onmessageBodyBaseline,
            eraseOverride, hsm]
        · by_cases hv : isValidCanvasMessage h m = true
          · simp [deliver, deliverBaseline, onmessageBody, onmessageBodyBaseline,
              eraseOverride, hsm, hv]
          · simp [deliver, deliverBaseline, onmessageBody, onmessageBodyBaseline,
              eraseOverride, hsm, hv]
      · have hr2 : b1 = false := by simpa using hr
        subst hr2
        simp [deliver, deliverBaseline, eraseOverride]

theorem eraseOverride_runMessages (h : Heap) (ms : List JSVal) :
    ∀ s1 s2 : WorkerState, eraseOverride s1 = eraseOverride s2 →
      eraseOverride (runMessages h s1 ms)
        = eraseOverride (runMessagesBaseline h s2 ms) := by
  induction ms with
  | nil => intro s1 s2 hs; exact hs
  | cons m ms ih =>
      intro s1 s2 hs
      exact ih (deliver h s1 m) (deliverBaseline h s2 m)
        (eraseOverride_deliver h m s1 s2 hs)

/-- C9: the override variant and the baseline variant have identical
handshake behavior — on every state and message the handler bodies agree
on everything except the `overrideInstalled` flag, every run from the
initial state agrees likewise, the baseline never touches the flag, and
the override variant sets it exactly on a successful binding. -/
theorem override_baseline_equivalence (h : Heap) (s : WorkerState) (m : JSVal) :
    eraseOverride (onmessageBody h s m) = eraseOverride (onmessageBodyBaseline h s m)
      ∧ (∀ ms : List JSVal,
          eraseOverride (runMessages h initialState ms)
            = eraseOverride (runMessagesBaseline h initialState ms))
      ∧ (onmessageBodyBaseline h s m).overrideInstalled = s.overrideInstalled
      ∧ (onmessageBody h s m).overrideInstalled
          = (if s.RUST_OFFSCREEN_CANVAS = none ∧ isValidCanvasMessage h m = true
              then true else s.overrideInstalled) := by
  refine ⟨?_, fun ms => eraseOverride_runMessages h ms initialState initialState rfl,
    ?_, ?_⟩ <;>
  · by_cases hsm : s.RUST_OFFSCREEN_CANVAS.isSome
    · have hn : ¬ s.RUST_OFFSCREEN_CANVAS = none := by
        intro hc; rw [hc] at hsm; exact Bool.noConfusion hsm
      simp [onmessageBody, onmessageBodyBaseline, eraseOverride, hsm, hn]
    · have h1 : s.RUST_OFFSCREEN_CANVAS = none := by
        cases hx : s.RUST_OFFSCREEN_CANVAS with
        | none => rfl
        | some c => rw [hx] at hsm; exact absurd rfl hsm
      by_cases hv : isValidCanvasMessage h m = true
      · simp [onmessageBody, onmessageBodyBaseline, eraseOverride, hsm, h1, hv]
      · simp [onmessageBody, onmessageBodyBaseline, eraseOverride, hsm, h1, hv]

/-! ### Lemmas about fields, heap updates and the getContext override -/

theorem lookupField_setFieldList_self (fs : List (String × JSVal)) (key : String)
    (v : JSVal) : lookupField (setFieldList fs key v) key = v := by
  induction fs with
  | nil => simp [setFieldList, lookupField]
  | cons p rest ih =>
      obtain ⟨k2, w⟩ := p
      by_cases hk : k2 = key
      · subst hk; simp [setFieldList, lookupField]
      · simp [setFieldList, lookupField, hk, ih]

theorem lookupField_setFieldList_ne (fs : List (String × JSVal)) (k key : String)
    (v : JSVal) (hne : k ≠ key) :
    lookupField (setFieldList fs key v) k = lookupField fs k := by
  induction fs with
  | nil => simp [setFieldList, lookupField, Ne.symm hne]
  | cons p rest ih =>
      obtain ⟨k2, w⟩ := p
      by_cases hk : k2 = key
      · subst hk; simp [setFieldList, lookupField, Ne.symm hne]
      · simp [setFieldList, lookupField, hk, ih]

theorem listGetD_set_self {α : Type} (l : List α) :
    ∀ (a : Nat) (x d : α), a < l.length → (l.set a x).getD a d = x := by
  induction l with
  | nil => intro a x d hlt; simp at hlt
  | cons y ys ih =>
      intro a x d hlt
      cases a with
      | zero => rfl
      | succ n => exact ih n x d (Nat.lt_of_succ_lt_succ hlt)

theorem listGetD_set_ne {α : Type} (l : List α) :
    ∀ (a b : Nat) (x d : α), b ≠ a → (l.set a x).getD b d = l.getD b d := by
  induction l with
  | nil => intro a b x d _; rfl
  | cons y ys ih =>
      intro a b x d hne
      cases a with
      | zero =>
          cases b with
          | zero => exact absurd rfl hne
          | succ m => rfl
      | succ n =>
          cases b with
          | zero => rfl
          | succ m => exact ih n m x d (fun hc => hne (by rw [hc]))

theorem listGetD_append_length {α : Type} (l : List α) (e d : α) :
    (l ++ [e]).getD l.length d = e := by
  induction l with
  | nil => rfl
  | cons y ys ih => exact ih

theorem heapSetField_getD_self (h : Heap) (a : Nat) (key : String) (v : JSVal)
    (hlt : a < h.length) :
    (heapSetField h a key v).getD a ⟨false, []⟩
      = ⟨(h.getD a ⟨false, []⟩).isCanvas,
          setFieldList (h.getD a ⟨false, []⟩).fields key v⟩ :=
  listGetD_set_self h a _ _ hlt

theorem getField_heapSetField_self (h : Heap) (a : Nat) (key : String) (v : JSVal)
    (hlt : a < h.length) :
    getField (heapSetField h a key v) (JSVal.ref a) key = v := by
  show lookupField ((heapSetField h a key v).getD a ⟨false, []⟩).fields key = v
  rw [heapSetField_getD_self h a key v hlt]
  exact lookupField_setFieldList_self _ _ _

theorem getField_heapSetField_ne (h : Heap) (a : Nat) (k key : String) (v : JSVal)
    (hne : k ≠ key) (hlt : a < h.length) :
    getField (heapSetField h a key v) (JSVal.ref a) k = getField h (JSVal.ref a) k := by
  show lookupField ((heapSetField h a key v).getD a ⟨false, []⟩).fields k
      = lookupField (h.getD a ⟨false, []⟩).fields k
  rw [heapSetField_getD_self h a key v hlt]
  exact lookupField_setFieldList_ne _ _ _ _ hne

theorem getContextTransform_of_ne (h : Heap) (args : List JSVal)
    (hty : args.getD 0 JSVal.undefined ≠ JSVal.str "webgl2") :
    getContextTransform h args = (h, args) := by
  unfold getContextTransform
  rw [if_neg hty]

theorem setArg1_getD_one (args : List JSVal) (v : JSVal) :
    (setArg1 args v).getD 1 JSVal.undefined = v := by
  cases args with
  | nil => rfl
  | cons a rest => cases rest with | nil => rfl | cons b rest2 => rfl

theorem getContextTransform_of_webgl2_fresh (h : Heap) (args : List JSVal)
    (hty : args.getD 0 JSVal.undefined = JSVal.str "webgl2")
    (hc : args.length < 2 ∨ typeofIsObject (args.getD 1 JSVal.undefined) = false
        ∨ args.getD 1 JSVal.undefined = JSVal.null) :
    getContextTransform h args
      = (heapSetField (h ++ [⟨false, []⟩]) h.length "desynchronized"
            (JSVal.boolean true),
          setArg1 args (JSVal.ref h.length)) := by
  unfold getContextTransform
  rw [if_pos hty, if_pos hc]
  dsimp only
  rw [setArg1_getD_one]

theorem listGetD_of_length_le {α : Type} (l : List α) :
    ∀ (n : Nat) (d : α), l.length ≤ n → l.getD n d = d := by
  induction l with
  | nil => intro n d _; rfl
  | cons y ys ih =>
      intro n d hle
      cases n with
      | zero => exact (Nat.not_succ_le_zero _ hle).elim
      | succ m => exact ih m d (Nat.le_of_succ_le_succ hle)

theorem getContextTransform_of_webgl2_obj (h : Heap) (args : List JSVal) (a : Nat)
    (hty : args.getD 0 JSVal.undefined = JSVal.str "webgl2")
    (harg : args.getD 1 JSVal.undefined = JSVal.ref a)
    (hlen : 2 ≤ args.length) :
    getContextTransform h args
      = (heapSetField h a "desynchronized" (JSVal.boolean true), args) := by
  have hc : ¬ (args.length < 2 ∨ typeofIsObject (args.getD 1 JSVal.undefined) = false
      ∨ args.getD 1 JSVal.undefined = JSVal.null) := by
    intro hcon
    rcases hcon with hc1 | hc2 | hc3
    · omega
    · rw [harg] at hc2; exact Bool.noConfusion hc2
    · rw [harg] at hc3; exact JSVal.noConfusion hc3
  unfold getContextTransform
  rw [if_pos hty, if_neg hc]
  dsimp only
  rw [harg]

/-- The behavior of the getContext argument transformation on a webgl2
request: the resulting second argument is an object with its
desynchronized attribute true; when the caller supplied no usable object
a fresh one is allocated at the end of the heap; when the caller supplied
an object, all its other fields are preserved. -/
theorem getContextTransform_webgl2_spec (h : Heap) (args : List JSVal)
    (hty : args.getD 0 JSVal.undefined = JSVal.str "webgl2")
    (hwf : ∀ a : Nat, args.getD 1 JSVal.undefined = JSVal.ref a → a < h.length) :
    (∃ a : Nat,
        (getContextTransform h args).2.getD 1 JSVal.undefined = JSVal.ref a
          ∧ getField (getContextTransform h args).1 (JSVal.ref a) "desynchronized"
              = JSVal.boolean true)
      ∧ ((args.length < 2 ∨ typeofIsObject (args.getD 1 JSVal.undefined) = false
            ∨ args.getD 1 JSVal.undefined = JSVal.null) →
          (getContextTransform h args).2.getD 1 JSVal.undefined
              = JSVal.ref h.length
            ∧ (getContextTransform h args).1.getD h.length ⟨false, []⟩
                = ⟨false, [("desynchronized", JSVal.boolean true)]⟩)
      ∧ (∀ (a : Nat) (k : String), args.getD 1 JSVal.undefined = JSVal.ref a →
          k ≠ "desynchronized" →
          getField (getContextTransform h args).1 (JSVal.ref a) k
            = getField h (JSVal.ref a) k) := by
  by_cases hc : args.length < 2 ∨ typeofIsObject (args.getD 1 JSVal.undefined) = false
      ∨ args.getD 1 JSVal.undefined = JSVal.null
  · rw [getContextTransform_of_webgl2_fresh h args hty hc]
    have hlt : h.length < (h ++ [(⟨false, []⟩ : HObj)]).length := by
      simp
    have hbase : (h ++ [(⟨false, []⟩ : HObj)]).getD h.length ⟨false, []⟩
        = ⟨false, []⟩ := listGetD_append_length h _ _
    have hget : (heapSetField (h ++ [⟨false, []⟩]) h.length "desynchronized"
          (JSVal.boolean true)).getD h.length ⟨false, []⟩
        = ⟨false, [("desynchronized", JSVal.boolean true)]⟩ := by
      simp only [heapSetField]
      rw [listGetD_set_self _ _ _ _ hlt, hbase]
      decide
    have hnoref : ∀ a : Nat, ¬ args.getD 1 JSVal.undefined = JSVal.ref a := by
      intro a ha
      rcases hc with hc1 | hc2 | hc3
      · rw [listGetD_of_length_le args 1 JSVal.undefined (by omega)] at ha
        exact JSVal.noConfusion ha
      · rw [ha] at hc2
        exact Bool.noConfusion hc2
      · rw [ha] at hc3
        exact JSVal.noConfusion hc3
    refine ⟨⟨h.length, setArg1_getD_one args _, ?_⟩,
      fun _ => ⟨setArg1_getD_one args _, hget⟩,
      fun a k ha _ => absurd ha (hnoref a)⟩
    simp only [getField]
    rw [hget]
    decide
  · have hlen : 2 ≤ args.length := by
      by_contra hlt2
      exact hc (Or.inl (Nat.not_le.mp hlt2))
    have hobj : typeofIsObject (args.getD 1 JSVal.undefined) = true := by
      cases hx : typeofIsObject (args.getD 1 JSVal.undefined) with
      | true => rfl
      | false => exact absurd (Or.inr (Or.inl hx)) hc
    have hnull : args.getD 1 JSVal.undefined ≠ JSVal.null := by
      intro hx
      exact hc (Or.inr (Or.inr hx))
    obtain ⟨a, harg⟩ : ∃ a : Nat, args.getD 1 JSVal.undefined = JSVal.ref a := by
      cases hx : args.getD 1 JSVal.undefined with
      | ref a => exact ⟨a, rfl⟩
      | null => exact absurd hx hnull
      | undefined => rw [hx] at hobj; exact Bool.noConfusion hobj
      | str s => rw [hx] at hobj; exact Bool.noConfusion hobj
      | boolean b => rw [hx] at hobj; exact Bool.noConfusion hobj
      | num n => rw [hx] at hobj; exact Bool.noConfusion hobj
    have hlt := hwf a harg
    rw [getContextTransform_of_webgl2_obj h args a hty harg hlen]
    refine ⟨⟨a, harg, getField_heapSetField_self h a _ _ hlt⟩,
      fun hcond => absurd hcond hc,
      fun a2 k ha2 hk => ?_⟩
    have ha : a2 = a := by
      rw [harg] at ha2
      exact (JSVal.ref.inj ha2).symm
    subst ha
    exact getField_heapSetField_ne h a2 k _ _ hk hlt

/-- C6: on a webgl2 request the override ensures an attributes object is
present (allocating a fresh empty one when the caller supplied none or a
non-object), forces its desynchronized attribute to true, preserves every
other caller-supplied attribute field, and delegates to the original
acquisition operation with the modified arguments. -/
theorem webgl2_attrs_forced_desynchronized (h : Heap) (args : List JSVal)
    (hty : args.getD 0 JSVal.undefined = JSVal.str "webgl2")
    (hwf : ∀ a : Nat, args.getD 1 JSVal.undefined = JSVal.ref a → a < h.length) :
    (∃ a : Nat,
        (getContextTransform h args).2.getD 1 JSVal.undefined = JSVal.ref a
          ∧ getField (getContextTransform h args).1 (JSVal.ref a) "desynchronized"
              = JSVal.boolean true)
      ∧ ((args.length < 2 ∨ typeofIsObject (args.getD 1 JSVal.undefined) = false
            ∨ args.getD 1 JSVal.undefined = JSVal.null) →
          (getContextTransform h args).2.getD 1 JSVal.undefined
              = JSVal.ref h.length
            ∧ (getContextTransform h args).1.getD h.length ⟨false, []⟩
                = ⟨false, [("desynchronized", JSVal.boolean true)]⟩)
      ∧ (∀ (a : Nat) (k : String), args.getD 1 JSVal.undefined = JSVal.ref a →
          k ≠ "desynchronized" →
          getField (getContextTransform h args).1 (JSVal.ref a) k
            = getField h (JSVal.ref a) k)
      ∧ ∀ (α : Type) (orig : Heap → List JSVal → α),
          getContextOverride orig h args
            = orig (getContextTransform h args).1 (getContextTransform h args).2 :=
  ⟨(getContextTransform_webgl2_spec h args hty hwf).1,
    (getContextTransform_webgl2_spec h args hty hwf).2.1,
    (getContextTransform_webgl2_spec h args hty hwf).2.2,
    fun _ _ => rfl⟩

/-- C6 witness: a webgl2 request over the heap `h0` with no attributes
argument supplied; the override allocates the attributes object at the
fresh address 2 and it carries exactly desynchronized = true. -/
theorem webgl2_attrs_forced_desynchronized_witness :
    (getContextTransform h0 [JSVal.str "webgl2"]).2.getD 1 JSVal.undefined
        = JSVal.ref 2
      ∧ (getContextTransform h0 [JSVal.str "webgl2"]).1.getD 2 ⟨false, []⟩
          = ⟨false, [("desynchronized", JSVal.boolean true)]⟩ := by
  have t := webgl2_attrs_forced_desynchronized h0 [JSVal.str "webgl2"] (by decide)
    (fun a ha => JSVal.noConfusion ha)
  have t2 := t.2.1 (by decide)
  exact ⟨t2.1, t2.2⟩

/-- C7: any non-webgl2 getContext call passes its arguments (and the
heap) through unchanged, and every call delegates to the original
acquisition operation on the transformed arguments, returning its result
unchanged. -/
theorem non_webgl2_passthrough (h : Heap) (args : List JSVal) :
    (args.getD 0 JSVal.undefined ≠ JSVal.str "webgl2" →
        getContextTransform h args = (h, args))
      ∧ ∀ (α : Type) (orig : Heap → List JSVal → α),
          getContextOverride orig h args
            = orig (getContextTransform h args).1 (getContextTransform h args).2 :=
  ⟨fun hty => getContextTransform_of_ne h args hty, fun _ _ => rfl⟩

/-- C7 witness: a 2d context request over the concrete heap `h0` is
passed through unchanged, and the override returns exactly what the
original operation returns. -/
theorem non_webgl2_passthrough_witness :
    getContextTransform h0 [JSVal.str "2d"] = (h0, [JSVal.str "2d"])
      ∧ getContextOverride (fun hp ap => (hp, ap)) h0 [JSVal.str "2d"]
          = ((getContextTransform h0 [JSVal.str "2d"]).1,
              (getContextTransform h0 [JSVal.str "2d"]).2) := by
  have t := non_webgl2_passthrough h0 [JSVal.str "2d"]
  exact ⟨t.1 (by decide), t.2 (Heap × List JSVal) (fun hp ap => (hp, ap))⟩

/-- C10: when the caller supplies a valid attributes object for a webgl2
request, the override mutates that very object in place: the argument
list handed to the original operation still holds the same reference, no
new object is allocated, the referenced object now has desynchronized =
true, its other fields are untouched, and every other heap object is
untouched. -/
theorem webgl2_attrs_mutated_in_place (h : Heap) (args : List JSVal) (a : Nat)
    (hty : args.getD 0 JSVal.undefined = JSVal.str "webgl2")
    (harg : args.getD 1 JSVal.undefined = JSVal.ref a)
    (hlt : a < h.length) :
    (getContextTransform h args).2 = args
      ∧ (getContextTransform h args).1.length = h.length
      ∧ getField (getContextTransform h args).1 (JSVal.ref a) "desynchronized"
          = JSVal.boolean true
      ∧ (∀ k : String, k ≠ "desynchronized" →
          getField (getContextTransform h args).1 (JSVal.ref a) k
            = getField h (JSVal.ref a) k)
      ∧ ∀ b : Nat, b ≠ a →
          (getContextTransform h args).1.getD b ⟨false, []⟩
            = h.getD b ⟨false, []⟩ := by
  have hlen : 2 ≤ args.length := by
    by_contra hlt2
    rw [listGetD_of_length_le args 1 JSVal.undefined (by omega)] at harg
    exact JSVal.noConfusion harg
  rw [getContextTransform_of_webgl2_obj h args a hty harg hlen]
  refine ⟨rfl, ?_, getField_heapSetField_self h a _ _ hlt,
    fun k hk => getField_heapSetField_ne h a k _ _ hk hlt,
    fun b hb => ?_⟩
  · simp [heapSetField]
  · exact listGetD_set_ne h a b _ _ hb

/-- C10 witness: the caller-owned attributes object `{ antialias: false }`
at address 0 is mutated in place; the `antialias` field survives. -/
theorem webgl2_attrs_mutated_in_place_witness :
    (getContextTransform [⟨false, [("antialias", JSVal.boolean false)]⟩]
          [JSVal.str "webgl2", JSVal.ref 0]).2
        = [JSVal.str "webgl2", JSVal.ref 0]
      ∧ getField (getContextTransform [⟨false, [("antialias", JSVal.boolean false)]⟩]
            [JSVal.str "webgl2", JSVal.ref 0]).1 (JSVal.ref 0) "desynchronized"
          = JSVal.boolean true
      ∧ getField (getContextTransform [⟨false, [("antialias", JSVal.boolean false)]⟩]
            [JSVal.str "webgl2", JSVal.ref 0]).1 (JSVal.ref 0) "antialias"
          = getField [⟨false, [("antialias", JSVal.boolean false)]⟩]
              (JSVal.ref 0) "antialias" := by
  have t := webgl2_attrs_mutated_in_place
    [⟨false, [("antialias", JSVal.boolean false)]⟩]
    [JSVal.str "webgl2", JSVal.ref 0] 0 (by decide) (by decide) (by decide)
  exact ⟨t.1, t.2.2.1, t.2.2.2.1 "antialias" (by decide)⟩
